import Mathlib

/-!
Verification of the HFTools schema-driven ORM core.

The development shallowly embeds the two ORM variants of the repository:

* the header defining FXInstrument with EntityTraits tableName "employees"
  together with its SQL builders and generic Repository (first variant);
* the header defining FXInstrument2 with EntityTraits tableName
  "FXInstrument2", autoToJson/autoFromJson based on json::at, the SQL
  builders and the Repository over IDatabase2 (second variant);
* the Sample_Entity.h utilities: timePointToString/stringToTimePoint,
  the contains/is_null based autoToJson/autoFromJson generic codec, the
  DBReader positional row decoder together with its Repository::getById.

JSON values are modelled by the JValue inductive, JSON objects by
association lists, C++ double by Rat, std::chrono time points by whole
seconds since the Unix epoch.  The libc calendar functions gmtime and
mktime are modelled by an explicit proleptic Gregorian conversion in UTC;
mktime takes the ambient timezone offset (seconds east of UTC, constant,
no DST) as an explicit parameter.
-/

/-- Model of a nlohmann json scalar value as used by the ORM core. -/
inductive JValue
  | jNull
  | jInt (i : Int)
  | jFloat (q : Rat)
  | jStr (s : String)
deriving DecidableEq

/-- Model of a flat nlohmann json object: keys mapped to scalar values. -/
def Row : Type := List (String × JValue)

instance : DecidableEq Row := by unfold Row; infer_instance

/-- Assignment of a key in a json object, as in j[key] = value. -/
def setKey : Row → String → JValue → Row
  | [], k, v => [(k, v)]
  | (k0, v0) :: rest, k, v =>
      if k0 = k then (k0, v) :: rest else (k0, v0) :: setKey rest k v

/-- Lookup of a key in a json object, none when the key is absent. -/
def lookupKey : Row → String → Option JValue
  | [], _ => none
  | (k0, v0) :: rest, k => if k0 = k then some v0 else lookupKey rest k

/-- Error outcomes of the embedded operations.  missingKey models the
out_of_range exception thrown by json::at, typeMismatch the type_error
thrown by json::get_to, columnCountMismatch the runtime_error thrown by
DBReader::validate, invalidArgument the invalid_argument thrown by
std::stoi and std::stod.  The notFound constructor is modelled from the
spec: it stands for the NotFoundError of the spec error taxonomy, which
no code of the repository ever raises. -/
inductive Err
  | missingKey (k : String)
  | typeMismatch
  | columnCountMismatch
  | invalidArgument
  | notFound
deriving DecidableEq

/-!
Calendar model for the libc functions used by Sample_Entity.h:
timePointToString calls gmtime and formats with put_time
"%Y-%m-%d %H:%M:%S"; stringToTimePoint parses with get_time of the same
format and converts with mktime (local time).  The model below is the
proleptic Gregorian conversion iterating years from 1970, which is the
behaviour of gmtime for nonnegative epoch seconds.
-/

/-- Gregorian leap year predicate. -/
def isLeap (y : Int) : Bool := (y % 4 == 0 && y % 100 != 0) || y % 400 == 0

/-- Number of days of a calendar year. -/
def daysInYear (y : Int) : Int := if isLeap y then 366 else 365

/-- Month lengths of a calendar year, January first. -/
def monthLengths (y : Int) : List Int :=
  [31, if isLeap y then 29 else 28, 31, 30, 31, 30, 31, 31, 30, 31, 30, 31]

/-- Walk years starting at y consuming d days (fuel-bounded recursion):
returns the reached year and the remaining day-of-year. -/
def yearSplit : Nat → Int → Int → Int × Int
  | 0, y, d => (y, d)
  | f+1, y, d => if d < daysInYear y then (y, d) else yearSplit f (y+1) (d - daysInYear y)

/-- Walk a month length table consuming d days: returns the reached
month number and the remaining day-of-month (0 based). -/
def monthSplit : List Int → Int → Int → Int × Int
  | [], m, d => (m, d)
  | L :: Ls, m, d => if d < L then (m, d) else monthSplit Ls (m+1) (d - L)

/-- Total days of the n consecutive years starting at year y. -/
def sumYearsN : Nat → Int → Int
  | 0, _ => 0
  | n+1, y => daysInYear y + sumYearsN n (y+1)

/-- Closed form helper: 365 y plus the number of leap years before y. -/
def daysQ (y : Int) : Int := 365*y + (y-1)/4 - (y-1)/100 + (y-1)/400

/-- Broken-down time, the model of std::tm (month 1 based, day 1 based). -/
structure Tm where
  year : Int
  month : Int
  day : Int
  hour : Int
  minute : Int
  second : Int
deriving DecidableEq

/-- Days of the months of year y strictly before month m. -/
def monthDaysBefore (y m : Int) : Int := ((monthLengths y).take (m - 1).toNat).sum

/-- Model of gmtime: UTC broken-down time of t seconds since the epoch. -/
def gmtimeZ (t : Int) : Tm :=
  let z := t / 86400
  let r := t % 86400
  let ys := yearSplit 9000 1970 z
  let ms := monthSplit (monthLengths ys.1) 1 ys.2
  ⟨ys.1, ms.1, ms.2 + 1, r / 3600, (r % 3600) / 60, r % 60⟩

/-- Model of timegm: epoch seconds of a UTC broken-down time. -/
def timegmZ (tm : Tm) : Int :=
  (sumYearsN (tm.year - 1970).toNat 1970 + monthDaysBefore tm.year tm.month + (tm.day - 1)) * 86400
    + tm.hour * 3600 + tm.minute * 60 + tm.second

/-- Decimal digit character of n, for 0 ≤ n ≤ 9. -/
def digitChar (n : Int) : Char := Char.ofNat (48 + n.toNat)

/-- Numeric value of a decimal digit character. -/
def dval (c : Char) : Int := (c.toNat : Int) - 48

/-- Decimal digit test on characters. -/
def isDig (c : Char) : Bool := 48 ≤ c.toNat && c.toNat ≤ 57

/-- Two digit zero-padded rendering, as put_time %m %d %H %M %S. -/
def pad2 (n : Int) : List Char := [digitChar (n / 10), digitChar (n % 10)]

/-- Four digit zero-padded rendering, as put_time %Y for years 1000-9999. -/
def pad4 (n : Int) : List Char :=
  [digitChar (n / 1000), digitChar (n / 100 % 10), digitChar (n / 10 % 10), digitChar (n % 10)]

/-- Rendering of a broken-down time with format "%Y-%m-%d %H:%M:%S". -/
def formatTm (tm : Tm) : String :=
  String.mk (pad4 tm.year ++ '-' :: pad2 tm.month ++ '-' :: pad2 tm.day ++ ' ' :: pad2 tm.hour
    ++ ':' :: pad2 tm.minute ++ ':' :: pad2 tm.second)

/-- Parsing of "%Y-%m-%d %H:%M:%S" with get_time, on the fixed-width
strings the formatter produces; none models a failed parse (failbit). -/
def parseTm (s : String) : Option Tm :=
  match s.data with
  | [y1,y2,y3,y4,c1,a1,a2,c2,b1,b2,c3,h1,h2,c4,m1,m2,c5,e1,e2] =>
    if isDig y1 && isDig y2 && isDig y3 && isDig y4 && c1 == '-' && isDig a1 && isDig a2
        && c2 == '-' && isDig b1 && isDig b2 && c3 == ' ' && isDig h1 && isDig h2
        && c4 == ':' && isDig m1 && isDig m2 && c5 == ':' && isDig e1 && isDig e2 then
      some ⟨1000*dval y1 + 100*dval y2 + 10*dval y3 + dval y4, 10*dval a1 + dval a2,
            10*dval b1 + dval b2, 10*dval h1 + dval h2, 10*dval m1 + dval m2, 10*dval e1 + dval e2⟩
    else none
  | _ => none

/-- Model of utils::timePointToString of Sample_Entity.h: gmtime then
put_time "%Y-%m-%d %H:%M:%S". -/
def timePointToString (t : Int) : String := formatTm (gmtimeZ t)

/-- Epoch seconds that mktime yields for the zero-initialized std::tm
left behind by a failed get_time parse (normalized to 1899-12-31). -/
def mktimeFailBase : Int := -2209075200

/-- Model of utils::stringToTimePoint of Sample_Entity.h: empty input
yields the default time point; otherwise get_time parses the string and
mktime converts the broken-down time as local time, tz being the ambient
timezone offset in seconds east of UTC (constant, no DST). -/
def stringToTimePoint (tz : Int) (s : String) : Int :=
  if s = "" then 0
  else
    match parseTm s with
    | some tm => timegmZ tm - tz
    | none => mktimeFailBase - tz

/-!
Entities and schemas of the two template ORM variants.  A Schema packs
tableName, primaryKey and the declared column list, each column carrying
its name and its json-valued getter, mirroring the Column member-pointer
plus the implicit nlohmann conversion used by the parameter builders.
-/

/-- FXInstrument of the first template variant (seven private fields). -/
structure FXInstrument where
  _id : Int := 0
  _userId : Int := 0
  _instrumentId : Int := 0
  _side : String := ""
  _quantity : Rat := 0
  _price : Rat := 0
  _timestamp : String := ""
deriving DecidableEq

/-- FXInstrument2 of the second template variant (seven public fields). -/
structure FXInstrument2 where
  _id : Int := 0
  _userId : Int := 0
  _instrumentId : Int := 0
  _side : String := ""
  _quantity : Rat := 0
  _price : Rat := 0
  _timestamp : String := ""
deriving DecidableEq

/-- One column binding of the SQL builder variants: name and getter. -/
structure SCol (E : Type) where
  name : String
  get : E → JValue

/-- EntityTraits content: table name, primary key, declared columns. -/
structure Schema (E : Type) where
  tableName : String
  primaryKey : String
  columns : List (SCol E)

/-- EntityTraits of FXInstrument (first variant): tableName "employees". -/
def fxSchema : Schema FXInstrument :=
  { tableName := "employees"
    primaryKey := "id"
    columns :=
      [⟨"id", fun e => .jInt e._id⟩,
       ⟨"userId", fun e => .jInt e._userId⟩,
       ⟨"instrumentId", fun e => .jInt e._instrumentId⟩,
       ⟨"side", fun e => .jStr e._side⟩,
       ⟨"quantity", fun e => .jFloat e._quantity⟩,
       ⟨"price", fun e => .jFloat e._price⟩,
       ⟨"timestamp", fun e => .jStr e._timestamp⟩] }

/-- EntityTraits of FXInstrument2 (second variant). -/
def fx2Schema : Schema FXInstrument2 :=
  { tableName := "FXInstrument2"
    primaryKey := "id"
    columns :=
      [⟨"id", fun e => .jInt e._id⟩,
       ⟨"userId", fun e => .jInt e._userId⟩,
       ⟨"instrumentId", fun e => .jInt e._instrumentId⟩,
       ⟨"side", fun e => .jStr e._side⟩,
       ⟨"quantity", fun e => .jFloat e._quantity⟩,
       ⟨"price", fun e => .jFloat e._price⟩,
       ⟨"timestamp", fun e => .jStr e._timestamp⟩] }

/-- Loop of buildInsertSQL over column names: appends ", " before every
name but the first. -/
def appendNames : List String → Bool → String → String
  | [], _, acc => acc
  | x :: xs, first, acc => appendNames xs false ((if first then acc else acc ++ ", ") ++ x)

/-- Loop of buildInsertSQL over placeholders: appends k placeholders
numbered from i, with ", " before every one but the first. -/
def appendPh : Nat → Nat → Bool → String → String
  | 0, _, _, acc => acc
  | k+1, i, first, acc =>
      appendPh k (i+1) false ((if first then acc else acc ++ ", ") ++ "$" ++ toString i)

/-- buildInsertSQL of both template variants. -/
def buildInsertSQL (s : Schema E) : String :=
  appendPh s.columns.length 1 true
    (appendNames (s.columns.map SCol.name) true ("INSERT INTO " ++ s.tableName ++ " (")
      ++ ") VALUES (") ++ ")"

/-- buildInsertParams of both template variants: push every column value
in declared order. -/
def buildInsertParams (s : Schema E) (e : E) : List JValue :=
  s.columns.foldl (fun ps c => ps ++ [c.get e]) []

/-- Loop of buildUpdateSQL: skip the primary key, emit name=$index for
the others, return the final text and the next free index. -/
def updSetLoop : List (SCol E) → String → Bool → Nat → String → String × Nat
  | [], _, _, i, acc => (acc, i)
  | c :: cs, pk, first, i, acc =>
      if c.name = pk then updSetLoop cs pk first i acc
      else updSetLoop cs pk false (i+1) ((if first then acc else acc ++ ", ") ++ c.name
        ++ "=$" ++ toString i)

/-- buildUpdateSQL of both template variants. -/
def buildUpdateSQL (s : Schema E) : String :=
  let r := updSetLoop s.columns s.primaryKey true 1 ("UPDATE " ++ s.tableName ++ " SET ")
  r.1 ++ " WHERE " ++ s.primaryKey ++ "=$" ++ toString r.2

/-- buildUpdateParams of both template variants: push the non primary
key values in declared order, then push the primary key value. -/
def buildUpdateParams (s : Schema E) (e : E) : List JValue :=
  s.columns.foldl (fun ps c => if c.name = s.primaryKey then ps ++ [c.get e] else ps)
    (s.columns.foldl (fun ps c => if c.name ≠ s.primaryKey then ps ++ [c.get e] else ps) [])

/-- buildDeleteSQL of both template variants. -/
def buildDeleteSQL (s : Schema E) : String :=
  "DELETE FROM " ++ s.tableName ++ " WHERE " ++ s.primaryKey ++ "=$1"

/-- buildDeleteParams of both template variants. -/
def buildDeleteParams (s : Schema E) (e : E) : List JValue :=
  s.columns.foldl (fun ps c => if c.name = s.primaryKey then ps ++ [c.get e] else ps) []

/-- The select by id text built inline by Repository::getById of both
template variants. -/
def selectByIdSQL (s : Schema E) : String :=
  "SELECT * FROM " ++ s.tableName ++ " WHERE " ++ s.primaryKey ++ "=$1"

/-- The select all text built inline by Repository::getAll. -/
def selectAllSQL (s : Schema E) : String := "SELECT * FROM " ++ s.tableName

/-- Placeholder indices that the appendPh loop emits: k indices counting
from i. -/
def phIndices : Nat → Nat → List Nat
  | 0, _ => []
  | k+1, i => i :: phIndices k (i+1)

/-- Comma-joined tail of a string list, as emitted by the loops after
the first element. -/
def commaTail : List String → String
  | [] => ""
  | x :: xs => ", " ++ x ++ commaTail xs

/-- Comma-joined string list. -/
def commaSep : List String → String
  | [] => ""
  | x :: xs => x ++ commaTail xs

/-!
JSON codec of the second variant, the template instantiation of
autoToJson and autoFromJson at FXInstrument2: toJson assigns every
column in declared order, fromJson reads every column with json::at
(throwing on an absent key) and get_to (throwing on a wrong type).
-/

/-- Truncation toward zero, as static_cast from double to int. -/
def ratTrunc (q : Rat) : Int := if 0 ≤ q then q.floor else q.ceil

/-- Model of json::get_to into an int field. -/
def getToInt : JValue → Except Err Int
  | .jInt i => .ok i
  | .jFloat q => .ok (ratTrunc q)
  | _ => .error .typeMismatch

/-- Model of json::get_to into a double field. -/
def getToFloat : JValue → Except Err Rat
  | .jInt i => .ok (i : Rat)
  | .jFloat q => .ok q
  | _ => .error .typeMismatch

/-- Model of json::get_to into a std::string field. -/
def getToStr : JValue → Except Err String
  | .jStr s => .ok s
  | _ => .error .typeMismatch

/-- Model of json::at: the value at the key, or the out_of_range error
when the key is absent. -/
def atKey (j : Row) (k : String) : Except Err JValue :=
  match lookupKey j k with
  | some v => .ok v
  | none => .error (.missingKey k)

/-- autoToJson instantiated at FXInstrument2: assign the seven columns
in declared order. -/
def toJson2 (e : FXInstrument2) : Row :=
  setKey (setKey (setKey (setKey (setKey (setKey (setKey [] "id" (.jInt e._id))
    "userId" (.jInt e._userId)) "instrumentId" (.jInt e._instrumentId))
    "side" (.jStr e._side)) "quantity" (.jFloat e._quantity))
    "price" (.jFloat e._price)) "timestamp" (.jStr e._timestamp)

/-- autoFromJson instantiated at FXInstrument2: json::at then get_to for
the seven columns in declared order; the first failure propagates. -/
def fromJson2 (j : Row) : Except Err FXInstrument2 := do
  let i ← atKey j "id" >>= getToInt
  let u ← atKey j "userId" >>= getToInt
  let n ← atKey j "instrumentId" >>= getToInt
  let sd ← atKey j "side" >>= getToStr
  let q ← atKey j "quantity" >>= getToFloat
  let p ← atKey j "price" >>= getToFloat
  let ts ← atKey j "timestamp" >>= getToStr
  pure { _id := i, _userId := u, _instrumentId := n, _side := sd,
         _quantity := q, _price := p, _timestamp := ts }

/-!
Repository of the second variant over the IDatabase2 contract.  The
executor is passed as a function; queryOnePrepared returns one json
object, executePrepared returns an affected row count that the
Repository discards.
-/

/-- Repository::getById of the second variant: build the select by id
text inline, call queryOnePrepared with the id as single parameter,
decode the returned row with fromJson. -/
def getById2 (db : String → List JValue → Row) (id : Int) : Except Err FXInstrument2 :=
  fromJson2 (db (selectByIdSQL fx2Schema) [.jInt id])

/-- Repository::insert of the second variant: executePrepared with the
insert text and parameters; the affected count is discarded. -/
def insert2 (db : String → List JValue → Int) (e : FXInstrument2) : Except Err Unit :=
  let _n := db (buildInsertSQL fx2Schema) (buildInsertParams fx2Schema e)
  .ok ()

/-- Repository::update of the second variant: executePrepared with the
update text and parameters; the affected count is discarded. -/
def update2 (db : String → List JValue → Int) (e : FXInstrument2) : Except Err Unit :=
  let _n := db (buildUpdateSQL fx2Schema) (buildUpdateParams fx2Schema e)
  .ok ()

/-- Repository::remove of the second variant: executePrepared with the
delete text and parameters; the affected count is discarded. -/
def remove2 (db : String → List JValue → Int) (e : FXInstrument2) : Except Err Unit :=
  let _n := db (buildDeleteSQL fx2Schema) (buildDeleteParams fx2Schema e)
  .ok ()

/-!
Generic codec of Sample_Entity.h.  Columns carry a scalar kind (the
static field type of the C++ column), a getter and a setter over the
entity; autoToJson renders Timestamp fields through timePointToString,
autoFromJson skips absent or null keys and decodes present values by
the field type, using stringToTimePoint for Timestamp fields.
-/

/-- The closed set of supported scalar field kinds. -/
inductive ScalarKind
  | int
  | float
  | str
  | time
deriving DecidableEq

/-- Tagged scalar value crossing the entity/JSON/SQL boundary. -/
inductive FieldValue
  | vInt (i : Int)
  | vFloat (q : Rat)
  | vStr (s : String)
  | vTime (t : Int)
deriving DecidableEq

/-- Kind tag of a field value. -/
def fvKind : FieldValue → ScalarKind
  | .vInt _ => .int
  | .vFloat _ => .float
  | .vStr _ => .str
  | .vTime _ => .time

/-- Range check used to state when a time value is inside the range the
fixed four-digit-year format round-trips on. -/
def timeRangeOK : FieldValue → Bool
  | .vTime t => decide (0 ≤ t ∧ t < 253402300800)
  | _ => true

/-- One column of the Sample_Entity.h generic codec: name, static field
kind, getter and setter. -/
structure KCol (E : Type) where
  name : String
  kind : ScalarKind
  get : E → FieldValue
  set : FieldValue → E → E

/-- EntityTraits content for the Sample_Entity.h generic codec. -/
structure KSchema (E : Type) where
  tableName : String
  primaryKey : String
  columns : List (KCol E)

/-- Per column body of autoToJson of Sample_Entity.h: Timestamp fields
render through timePointToString, the other kinds embed directly. -/
def encodeField : FieldValue → JValue
  | .vInt i => .jInt i
  | .vFloat q => .jFloat q
  | .vStr s => .jStr s
  | .vTime t => .jStr (timePointToString t)

/-- autoToJson of Sample_Entity.h: assign every column in declared
order into an initially empty json object. -/
def autoToJsonS (s : KSchema E) (e : E) : Row :=
  s.columns.foldl (fun j c => setKey j c.name (encodeField (c.get e))) []

/-- Per column decoding of autoFromJson of Sample_Entity.h, selected by
the static field kind; Timestamp fields read a string and convert with
stringToTimePoint under the ambient timezone offset tz. -/
def decodeAs (tz : Int) : ScalarKind → JValue → Except Err FieldValue
  | .int, v => (getToInt v).map .vInt
  | .float, v => (getToFloat v).map .vFloat
  | .str, v => (getToStr v).map .vStr
  | .time, v => (getToStr v).map (fun str => .vTime (stringToTimePoint tz str))

/-- Column loop of autoFromJson of Sample_Entity.h: skip a column whose
key is absent or null, otherwise decode and set; the first decoding
failure propagates. -/
def fromJsonLoopS (tz : Int) : List (KCol E) → Row → E → Except Err E
  | [], _, e => .ok e
  | c :: cs, j, e =>
      match lookupKey j c.name with
      | none => fromJsonLoopS tz cs j e
      | some .jNull => fromJsonLoopS tz cs j e
      | some v => do
          let fv ← decodeAs tz c.kind v
          fromJsonLoopS tz cs j (c.set fv e)

/-- autoFromJson of Sample_Entity.h: start from the default-constructed
entity e0 and fill every present non-null column in declared order. -/
def autoFromJsonS (tz : Int) (s : KSchema E) (j : Row) (e0 : E) : Except Err E :=
  fromJsonLoopS tz s.columns j e0

/-- Concrete instantiation of the Sample_Entity.h generic codec with
one field of every supported scalar kind, standing for a registered
entity type whose fields cover Int, Float, String and Timestamp. -/
structure TimedEntity where
  tid : Int := 0
  tqty : Rat := 0
  tlabel : String := ""
  tstamp : Int := 0
deriving DecidableEq

/-- Schema of TimedEntity: four columns, one per scalar kind. -/
def timedSchema : KSchema TimedEntity :=
  { tableName := "TimedEntity"
    primaryKey := "tid"
    columns :=
      [⟨"tid", .int, fun e => .vInt e.tid,
         fun v e => match v with | .vInt i => { e with tid := i } | _ => e⟩,
       ⟨"tqty", .float, fun e => .vFloat e.tqty,
         fun v e => match v with | .vFloat q => { e with tqty := q } | _ => e⟩,
       ⟨"tlabel", .str, fun e => .vStr e.tlabel,
         fun v e => match v with | .vStr s => { e with tlabel := s } | _ => e⟩,
       ⟨"tstamp", .time, fun e => .vTime e.tstamp,
         fun v e => match v with | .vTime t => { e with tstamp := t } | _ => e⟩] }

/-!
DBValue, DBRow and DBReader of Sample_Entity.h, and the optional
Repository::getById built on them.  A database cell is a string with a
null flag; DBValue::as parses by the target type (stoi, stod, identity,
stringToTimePoint) and yields the type default for a null cell.
-/

/-- One database cell: text content and null flag, as DBValue. -/
structure DBVal where
  data : String
  isNull : Bool
deriving DecidableEq

/-- Default field value of a scalar kind, as the value-initialized T of
DBValue::as on a null cell. -/
def defaultFV : ScalarKind → FieldValue
  | .int => .vInt 0
  | .float => .vFloat 0
  | .str => .vStr ""
  | .time => .vTime 0

/-- Digit run parser shared by the stoi and stod models: fails when no
leading digit is present. -/
def parseIntDigits (cs : List Char) : Except Err Int :=
  let ds := cs.takeWhile isDig
  if ds.isEmpty then .error .invalidArgument
  else .ok (ds.foldl (fun a c => a * 10 + dval c) 0)

/-- Model of std::stoi: optional leading spaces and sign, then a
mandatory digit run; trailing characters are ignored. -/
def parseIntM (s : String) : Except Err Int :=
  let cs := s.data.dropWhile (fun c => c == ' ')
  match cs with
  | '-' :: rest => (parseIntDigits rest).map (fun n => -n)
  | '+' :: rest => parseIntDigits rest
  | _ => parseIntDigits cs

/-- Decimal literal parser of the stod model: integer digits with an
optional fractional part; fails when no digit is present. -/
def parseRatDigits (cs : List Char) : Except Err Rat :=
  let ds := cs.takeWhile isDig
  let rest := cs.dropWhile isDig
  match rest with
  | '.' :: fr =>
      let fs := fr.takeWhile isDig
      if ds.isEmpty && fs.isEmpty then .error .invalidArgument
      else .ok ((ds.foldl (fun a c => a * 10 + dval c) 0 : Int)
        + ((fs.foldl (fun a c => a * 10 + dval c) 0 : Int) : Rat) / (10 : Rat) ^ fs.length)
  | _ =>
      if ds.isEmpty then .error .invalidArgument
      else .ok ((ds.foldl (fun a c => a * 10 + dval c) 0 : Int) : Rat)

/-- Model of std::stod restricted to plain decimal literals: optional
leading spaces and sign, then digits with an optional fraction. -/
def parseRatM (s : String) : Except Err Rat :=
  let cs := s.data.dropWhile (fun c => c == ' ')
  match cs with
  | '-' :: rest => (parseRatDigits rest).map (fun q => -q)
  | '+' :: rest => parseRatDigits rest
  | _ => parseRatDigits cs

/-- DBValue::as selected by the static field kind: the type default for
a null cell, otherwise stoi, stod, identity or stringToTimePoint. -/
def asKind (tz : Int) (k : ScalarKind) (v : DBVal) : Except Err FieldValue :=
  if v.isNull then .ok (defaultFV k)
  else
    match k with
    | .int => (parseIntM v.data).map .vInt
    | .float => (parseRatM v.data).map .vFloat
    | .str => .ok (.vStr v.data)
    | .time => .ok (.vTime (stringToTimePoint tz v.data))

/-- Column loop of the DBReader extraction operator: read the cells
positionally in declared column order and set each field. -/
def decodeRowLoop (tz : Int) : List (KCol E) → List DBVal → E → Except Err E
  | [], _, e => .ok e
  | _ :: _, [], _ => .error .columnCountMismatch
  | c :: cs, v :: vs, e => do
      let fv ← asKind tz c.kind v
      decodeRowLoop tz cs vs (c.set fv e)

/-- DBReader extraction of one row into an entity: validate the column
count, then read the cells positionally. -/
def decodeRowS (tz : Int) (s : KSchema E) (row : List DBVal) (e0 : E) : Except Err E :=
  if row.length ≠ s.columns.length then .error .columnCountMismatch
  else decodeRowLoop tz s.columns row e0

/-- Repository::getById of Sample_Entity.h: build the select by id text
inline (with spaces around the equal sign), call executeQuery with the
id rendered by std::to_string, return none when the reader has no row,
otherwise decode the first row. -/
def getByIdS (tz : Int) (s : KSchema E) (db : String → List String → List (List DBVal))
    (id : Int) (e0 : E) : Except Err (Option E) :=
  let sql := "SELECT * FROM " ++ s.tableName ++ " WHERE " ++ s.primaryKey ++ " = $1"
  match db sql [toString id] with
  | [] => .ok none
  | r :: _ => (decodeRowS tz s r e0).map some

/-!
Lemmas about the calendar model: the year and month walks are correct,
gmtime followed by timegm is the identity, the broken-down fields are in
range, and formatting followed by parsing is the identity.
-/

theorem daysInYear_ge (y : Int) : 365 ≤ daysInYear y ∧ daysInYear y ≤ 366 := by
  unfold daysInYear; split <;> omega

theorem yearSplit_correct (f : Nat) : ∀ (y d : Int), 0 ≤ d → d < 365 * f →
    y ≤ (yearSplit f y d).1 ∧ 0 ≤ (yearSplit f y d).2 ∧
    (yearSplit f y d).2 < daysInYear (yearSplit f y d).1 ∧
    sumYearsN ((yearSplit f y d).1 - y).toNat y = d - (yearSplit f y d).2 := by
  induction f with
  | zero => intro y d h1 h2; simp at h2; omega
  | succ f ih =>
    intro y d h1 h2
    rw [yearSplit]
    split
    · rename_i hlt
      refine ⟨le_refl _, h1, hlt, ?_⟩
      simp [sumYearsN]
    · rename_i hge
      have hd := daysInYear_ge y
      have h1a : 0 ≤ d - daysInYear y := by omega
      have h2a : d - daysInYear y < 365 * f := by push_cast at h2 ⊢; omega
      obtain ⟨a1, a2, a3, a4⟩ := ih (y+1) (d - daysInYear y) h1a h2a
      refine ⟨by omega, a2, a3, ?_⟩
      have hn : ((yearSplit f (y+1) (d - daysInYear y)).1 - y).toNat
          = ((yearSplit f (y+1) (d - daysInYear y)).1 - (y+1)).toNat + 1 := by omega
      rw [hn, sumYearsN]
      omega

theorem monthSplit_correct (L : List Int) : ∀ (m0 d : Int),
    (∀ x ∈ L, 0 < x ∧ x ≤ 31) → 0 ≤ d → d < L.sum →
    m0 ≤ (monthSplit L m0 d).1 ∧ (monthSplit L m0 d).1 < m0 + L.length ∧
    0 ≤ (monthSplit L m0 d).2 ∧ (monthSplit L m0 d).2 ≤ 30 ∧
    (L.take ((monthSplit L m0 d).1 - m0).toNat).sum = d - (monthSplit L m0 d).2 := by
  induction L with
  | nil => intro m0 d _ h1 h2; simp at h2; omega
  | cons x Ls ih =>
    intro m0 d hpos h1 h2
    rw [monthSplit]
    split
    · rename_i hlt
      have hx := hpos x (by simp)
      refine ⟨le_refl _, ?_, h1, by omega, ?_⟩
      · simp only [List.length_cons]; push_cast; omega
      · simp
    · rename_i hge
      have hx := hpos x (by simp)
      have h1a : 0 ≤ d - x := by omega
      have h2a : d - x < Ls.sum := by simp [List.sum_cons] at h2; omega
      obtain ⟨a1, a2, a3, a4, a5⟩ := ih (m0+1) (d - x) (fun z hz => hpos z (by simp [hz])) h1a h2a
      refine ⟨by omega, ?_, a3, a4, ?_⟩
      · simp only [List.length_cons] at a2 ⊢; push_cast at a2 ⊢; omega
      · have hn : ((monthSplit Ls (m0+1) (d-x)).1 - m0).toNat
            = ((monthSplit Ls (m0+1) (d-x)).1 - (m0+1)).toNat + 1 := by omega
        rw [hn, List.take_succ_cons, List.sum_cons]
        omega

theorem monthLengths_sum (y : Int) : (monthLengths y).sum = daysInYear y := by
  unfold monthLengths daysInYear; split <;> simp

theorem monthLengths_pos (y : Int) : ∀ x ∈ monthLengths y, 0 < x ∧ x ≤ 31 := by
  unfold monthLengths; split <;> (intro x hx; fin_cases hx <;> omega)

theorem daysInYear_eq (y : Int) : daysInYear y = daysQ (y+1) - daysQ y := by
  unfold daysInYear daysQ isLeap
  simp only [Bool.or_eq_true, Bool.and_eq_true, beq_iff_eq, bne_iff_ne]
  split <;> rename_i h <;> omega

theorem sumYearsN_closed (n : Nat) : ∀ y : Int, sumYearsN n y = daysQ (y + n) - daysQ y := by
  induction n with
  | zero => intro y; simp [sumYearsN]
  | succ n ih =>
    intro y
    rw [sumYearsN, ih (y+1), daysInYear_eq]
    have h : y + 1 + (n:Int) = y + ((n:Nat)+1 : Nat) := by push_cast; ring
    rw [h]
    push_cast
    ring_nf

theorem timegm_gmtime (t : Int) (h1 : 0 ≤ t) (h2 : t < 253402300800) :
    timegmZ (gmtimeZ t) = t := by
  unfold gmtimeZ timegmZ
  simp only []
  have hz1 : 0 ≤ t / 86400 := by omega
  have hz2 : t / 86400 < 365 * (9000:Nat) := by push_cast; omega
  obtain ⟨y1, y2, y3, y4⟩ := yearSplit_correct 9000 1970 (t / 86400) hz1 hz2
  set ys := yearSplit 9000 1970 (t / 86400)
  have hm2 : ys.2 < (monthLengths ys.1).sum := by rw [monthLengths_sum]; omega
  obtain ⟨m1, m2, m3, m4, m5⟩ :=
    monthSplit_correct (monthLengths ys.1) 1 ys.2 (monthLengths_pos ys.1) y2 hm2
  set ms := monthSplit (monthLengths ys.1) 1 ys.2
  unfold monthDaysBefore
  rw [m5]
  omega

theorem gmtime_fields (t : Int) (h1 : 0 ≤ t) (h2 : t < 253402300800) :
    1970 ≤ (gmtimeZ t).year ∧ (gmtimeZ t).year ≤ 9999
    ∧ 1 ≤ (gmtimeZ t).month ∧ (gmtimeZ t).month ≤ 12
    ∧ 1 ≤ (gmtimeZ t).day ∧ (gmtimeZ t).day ≤ 31
    ∧ 0 ≤ (gmtimeZ t).hour ∧ (gmtimeZ t).hour < 24
    ∧ 0 ≤ (gmtimeZ t).minute ∧ (gmtimeZ t).minute < 60
    ∧ 0 ≤ (gmtimeZ t).second ∧ (gmtimeZ t).second < 60 := by
  unfold gmtimeZ
  simp only []
  have hz1 : 0 ≤ t / 86400 := by omega
  have hz2 : t / 86400 < 365 * (9000:Nat) := by push_cast; omega
  obtain ⟨y1, y2, y3, y4⟩ := yearSplit_correct 9000 1970 (t / 86400) hz1 hz2
  set ys := yearSplit 9000 1970 (t / 86400)
  have hm2 : ys.2 < (monthLengths ys.1).sum := by rw [monthLengths_sum]; omega
  obtain ⟨m1, m2, m3, m4, m5⟩ :=
    monthSplit_correct (monthLengths ys.1) 1 ys.2 (monthLengths_pos ys.1) y2 hm2
  set ms := monthSplit (monthLengths ys.1) 1 ys.2
  have hlen : (monthLengths ys.1).length = 12 := by
    unfold monthLengths; split <;> rfl
  have hcl := sumYearsN_closed (ys.1 - 1970).toNat 1970
  rw [y4] at hcl
  have hyle : ys.1 ≤ 9999 := by
    by_contra hcon
    push_neg at hcon
    have he : (1970 : Int) + ((ys.1 - 1970).toNat : Int) = ys.1 := by omega
    rw [he] at hcl
    unfold daysQ at hcl
    omega
  rw [hlen] at m2
  refine ⟨y1, hyle, m1, by omega, by omega, by omega, by omega, by omega, by omega, by omega,
    by omega, by omega⟩

theorem digit_facts (n : Int) (h1 : 0 ≤ n) (h2 : n < 10) :
    isDig (digitChar n) = true ∧ dval (digitChar n) = n := by
  have h : n = 0 ∨ n = 1 ∨ n = 2 ∨ n = 3 ∨ n = 4 ∨ n = 5 ∨ n = 6 ∨ n = 7 ∨ n = 8 ∨ n = 9 := by
    omega
  rcases h with h|h|h|h|h|h|h|h|h|h <;> subst h <;> exact ⟨by decide, by decide⟩

theorem parse_format (tm : Tm) (hy1 : 0 ≤ tm.year) (hy2 : tm.year < 10000)
    (hmo : 0 ≤ tm.month ∧ tm.month < 100) (hd : 0 ≤ tm.day ∧ tm.day < 100)
    (hh : 0 ≤ tm.hour ∧ tm.hour < 100) (hmi : 0 ≤ tm.minute ∧ tm.minute < 100)
    (hs : 0 ≤ tm.second ∧ tm.second < 100) :
    parseTm (formatTm tm) = some tm := by
  obtain ⟨y, mo, d, h, mi, s⟩ := tm
  simp only at hy1 hy2 hmo hd hh hmi hs
  have d1 := digit_facts (y / 1000) (by omega) (by omega)
  have d2 := digit_facts (y / 100 % 10) (by omega) (by omega)
  have d3 := digit_facts (y / 10 % 10) (by omega) (by omega)
  have d4 := digit_facts (y % 10) (by omega) (by omega)
  have d5 := digit_facts (mo / 10) (by omega) (by omega)
  have d6 := digit_facts (mo % 10) (by omega) (by omega)
  have d7 := digit_facts (d / 10) (by omega) (by omega)
  have d8 := digit_facts (d % 10) (by omega) (by omega)
  have d9 := digit_facts (h / 10) (by omega) (by omega)
  have d10 := digit_facts (h % 10) (by omega) (by omega)
  have d11 := digit_facts (mi / 10) (by omega) (by omega)
  have d12 := digit_facts (mi % 10) (by omega) (by omega)
  have d13 := digit_facts (s / 10) (by omega) (by omega)
  have d14 := digit_facts (s % 10) (by omega) (by omega)
  simp only [formatTm, parseTm, pad4, pad2, List.cons_append, List.nil_append]
  simp only [d1.1, d2.1, d3.1, d4.1, d5.1, d6.1, d7.1, d8.1, d9.1, d10.1, d11.1, d12.1,
    d13.1, d14.1, Bool.and_self, Bool.true_and, beq_self_eq_true, if_true]
  rw [d1.2, d2.2, d3.2, d4.2, d5.2, d6.2, d7.2, d8.2, d9.2, d10.2, d11.2, d12.2, d13.2, d14.2]
  congr 1
  congr 1 <;> omega

theorem formatTm_ne_empty (tm : Tm) : formatTm tm ≠ "" := by
  simp [formatTm, pad4, String.ext_iff]

theorem formatTm_length (tm : Tm) : (formatTm tm).length = 19 := by
  simp [formatTm, pad4, pad2, String.length]

theorem stringToTimePoint_format (tz t : Int) (h1 : 0 ≤ t) (h2 : t < 253402300800) :
    stringToTimePoint tz (timePointToString t) = t - tz := by
  unfold stringToTimePoint timePointToString
  rw [if_neg (formatTm_ne_empty _)]
  have hb := gmtime_fields t h1 h2
  rw [parse_format (gmtimeZ t) (by omega) (by omega) (by omega) (by omega)
    (by omega) (by omega) (by omega)]
  show timegmZ (gmtimeZ t) - tz = t - tz
  rw [timegm_gmtime t h1 h2]

/-!
Lemmas about the SQL builders: the parameter fold is the column map,
the two loops of buildInsertSQL emit the comma-joined column names and
the comma-joined placeholder indices counted from one.
-/

theorem foldl_push_map (cols : List (SCol E)) (e : E) :
    ∀ acc : List JValue,
      cols.foldl (fun ps c => ps ++ [c.get e]) acc = acc ++ cols.map (fun c => c.get e) := by
  induction cols with
  | nil => intro acc; simp
  | cons c cs ih => intro acc; simp [List.foldl_cons, ih]

theorem buildInsertParams_eq (s : Schema E) (e : E) :
    buildInsertParams s e = s.columns.map (fun c => c.get e) := by
  unfold buildInsertParams
  rw [foldl_push_map]
  simp

theorem appendNames_false (xs : List String) :
    ∀ acc, appendNames xs false acc = acc ++ commaTail xs := by
  induction xs with
  | nil => intro acc; simp [appendNames, commaTail, String.append_empty]
  | cons x xs ih => intro acc; simp [appendNames, commaTail, ih, String.append_assoc]

theorem appendNames_true (xs : List String) (acc : String) :
    appendNames xs true acc = acc ++ commaSep xs := by
  cases xs with
  | nil => simp [appendNames, commaSep, String.append_empty]
  | cons x xs => simp [appendNames, commaSep, appendNames_false, String.append_assoc]

theorem comma_dollar (x : String) : (", " : String) ++ ("$" ++ x) = ", $" ++ x := by
  rw [← String.append_assoc]
  rfl

theorem appendPh_false (k : Nat) :
    ∀ (i : Nat) (acc : String),
      appendPh k i false acc
        = acc ++ commaTail ((phIndices k i).map (fun n => "$" ++ toString n)) := by
  induction k with
  | zero => intro i acc; simp [appendPh, phIndices, commaTail, String.append_empty]
  | succ k ih =>
    intro i acc
    simp [appendPh, phIndices, commaTail, ih, String.append_assoc, comma_dollar]

theorem appendPh_true (k i : Nat) (acc : String) :
    appendPh k i true acc
      = acc ++ commaSep ((phIndices k i).map (fun n => "$" ++ toString n)) := by
  cases k with
  | zero => simp [appendPh, phIndices, commaSep, String.append_empty]
  | succ k => simp [appendPh, phIndices, commaSep, appendPh_false, String.append_assoc]

theorem buildInsertSQL_eq (s : Schema E) :
    buildInsertSQL s = "INSERT INTO " ++ s.tableName ++ " ("
      ++ commaSep (s.columns.map SCol.name) ++ ") VALUES ("
      ++ commaSep ((phIndices s.columns.length 1).map (fun n => "$" ++ toString n)) ++ ")" := by
  unfold buildInsertSQL
  rw [appendNames_true, appendPh_true]

theorem phIndices_getElem (k : Nat) :
    ∀ i n : Nat, (phIndices k i)[n]? = if n < k then some (i + n) else none := by
  induction k with
  | zero => intro i n; simp [phIndices]
  | succ k ih =>
    intro i n
    cases n with
    | zero => simp [phIndices]
    | succ n =>
      simp only [phIndices, List.getElem?_cons_succ, ih (i+1) n]
      by_cases h : n < k
      · rw [if_pos h, if_pos (by omega)]
        congr 1
        omega
      · rw [if_neg h, if_neg (by omega)]

theorem fromJson2_toJson2 (e : FXInstrument2) : fromJson2 (toJson2 e) = .ok e := rfl

/-!
Lemmas about the Sample_Entity.h generic codec: key lookup after the
assignment fold, decoding after encoding per scalar kind, and the
behaviour of the fromJson column loop.
-/

theorem lookup_setKey_self (j : Row) (k : String) (v : JValue) :
    lookupKey (setKey j k v) k = some v := by
  induction j with
  | nil => simp [setKey, lookupKey]
  | cons p rest ih =>
    obtain ⟨k0, v0⟩ := p
    by_cases h : k0 = k
    · simp [setKey, lookupKey, h]
    · simp [setKey, lookupKey, h, ih]

theorem lookup_setKey_other (j : Row) (k k2 : String) (v : JValue) (h : k2 ≠ k) :
    lookupKey (setKey j k2 v) k = lookupKey j k := by
  induction j with
  | nil => simp [setKey, lookupKey, h]
  | cons p rest ih =>
    obtain ⟨k0, v0⟩ := p
    by_cases h0 : k0 = k2
    · subst h0
      simp [setKey, lookupKey, h]
    · simp [setKey, h0, lookupKey, ih]

theorem lookup_encode_fold_absent (cols : List (KCol E)) (e : E) (k : String)
    (h : ∀ c ∈ cols, c.name ≠ k) :
    ∀ j : Row,
      lookupKey (cols.foldl (fun j c => setKey j c.name (encodeField (c.get e))) j) k
        = lookupKey j k := by
  induction cols with
  | nil => intro j; simp
  | cons c cs ih =>
    intro j
    simp only [List.foldl_cons]
    rw [ih (fun c2 h2 => h c2 (by simp [h2]))]
    exact lookup_setKey_other j k c.name (encodeField (c.get e)) (h c (by simp))

theorem lookup_autoToJson_mem (cols : List (KCol E)) (e : E) (c : KCol E) :
    ∀ j : Row, c ∈ cols → (cols.map KCol.name).Nodup →
      lookupKey (cols.foldl (fun j c => setKey j c.name (encodeField (c.get e))) j) c.name
        = some (encodeField (c.get e)) := by
  induction cols with
  | nil => intro j hc _; cases hc
  | cons c0 cs ih =>
    intro j hc hnd
    simp only [List.map_cons, List.nodup_cons] at hnd
    rcases List.mem_cons.mp hc with h | h
    · subst h
      simp only [List.foldl_cons]
      rw [lookup_encode_fold_absent cs e c.name
        (fun c2 h2 => fun heq => hnd.1 (heq ▸ List.mem_map_of_mem KCol.name h2))]
      exact lookup_setKey_self j c.name (encodeField (c.get e))
    · simp only [List.foldl_cons]
      exact ih (setKey j c0.name (encodeField (c0.get e))) h hnd.2

theorem lookup_autoToJson (s : KSchema E) (e : E) (c : KCol E)
    (hc : c ∈ s.columns) (hnd : (s.columns.map KCol.name).Nodup) :
    lookupKey (autoToJsonS s e) c.name = some (encodeField (c.get e)) :=
  lookup_autoToJson_mem s.columns e c [] hc hnd

theorem encodeField_ne_null (fv : FieldValue) : encodeField fv ≠ .jNull := by
  cases fv <;> simp [encodeField]

theorem decodeAs_encodeField (fv : FieldValue) (hr : timeRangeOK fv = true) :
    decodeAs 0 (fvKind fv) (encodeField fv) = .ok fv := by
  cases fv with
  | vInt i => rfl
  | vFloat q => rfl
  | vStr s => rfl
  | vTime t =>
    simp only [timeRangeOK, decide_eq_true_eq] at hr
    simp only [fvKind, encodeField, decodeAs, getToStr, Except.map]
    rw [stringToTimePoint_format 0 t hr.1 hr.2]
    simp

theorem exceptBind_ok {q a b : Type} (x : a) (f : a → Except q b) :
    (Except.ok x >>= f) = f x := rfl

theorem fromJsonLoop_skip (tz : Int) (cols : List (KCol E)) (j : Row)
    (h : ∀ c ∈ cols, lookupKey j c.name = none ∨ lookupKey j c.name = some .jNull) :
    ∀ e : E, fromJsonLoopS tz cols j e = .ok e := by
  induction cols with
  | nil => intro e; rfl
  | cons c cs ih =>
    intro e
    rcases h c (by simp) with h0 | h0 <;>
      simp only [fromJsonLoopS, h0] <;>
      exact ih (fun c2 h2 => h c2 (by simp [h2])) e

theorem fromJsonLoop_isOk (tz : Int) (cols : List (KCol E)) (j : Row)
    (h : ∀ c ∈ cols, ∀ v, lookupKey j c.name = some v → v ≠ .jNull →
      ∃ fv, decodeAs tz c.kind v = .ok fv) :
    ∀ e : E, ∃ e2, fromJsonLoopS tz cols j e = .ok e2 := by
  induction cols with
  | nil => intro e; exact ⟨e, rfl⟩
  | cons c cs ih =>
    intro e
    have hrest : ∀ c2 ∈ cs, ∀ v, lookupKey j c2.name = some v → v ≠ .jNull →
        ∃ fv, decodeAs tz c2.kind v = .ok fv :=
      fun c2 h2 => h c2 (by simp [h2])
    cases hl : lookupKey j c.name with
    | none => simp only [fromJsonLoopS, hl]; exact ih hrest e
    | some v =>
      cases v with
      | jNull => simp only [fromJsonLoopS, hl]; exact ih hrest e
      | jInt i =>
        obtain ⟨fv, hfv⟩ := h c (by simp) _ hl (by simp)
        simp only [fromJsonLoopS, hl, hfv, exceptBind_ok]
        exact ih hrest _
      | jFloat q =>
        obtain ⟨fv, hfv⟩ := h c (by simp) _ hl (by simp)
        simp only [fromJsonLoopS, hl, hfv, exceptBind_ok]
        exact ih hrest _
      | jStr s2 =>
        obtain ⟨fv, hfv⟩ := h c (by simp) _ hl (by simp)
        simp only [fromJsonLoopS, hl, hfv, exceptBind_ok]
        exact ih hrest _

theorem fromJsonLoop_roundtrip (cols : List (KCol E)) (j : Row) (e : E)
    (h : ∀ c ∈ cols, lookupKey j c.name = some (encodeField (c.get e))
      ∧ decodeAs 0 c.kind (encodeField (c.get e)) = .ok (c.get e)) :
    ∀ acc : E, fromJsonLoopS 0 cols j acc
      = .ok (cols.foldl (fun a c => c.set (c.get e) a) acc) := by
  induction cols with
  | nil => intro acc; rfl
  | cons c cs ih =>
    intro acc
    obtain ⟨hl, hdec⟩ := h c (by simp)
    have hrest : ∀ c2 ∈ cs, lookupKey j c2.name = some (encodeField (c2.get e))
        ∧ decodeAs 0 c2.kind (encodeField (c2.get e)) = .ok (c2.get e) :=
      fun c2 h2 => h c2 (by simp [h2])
    cases hfv : c.get e with
    | vInt i =>
      rw [hfv] at hl hdec
      simp only [encodeField] at hl hdec
      simp only [fromJsonLoopS, hl, hdec, exceptBind_ok, List.foldl_cons, hfv]
      exact ih hrest _
    | vFloat q =>
      rw [hfv] at hl hdec
      simp only [encodeField] at hl hdec
      simp only [fromJsonLoopS, hl, hdec, exceptBind_ok, List.foldl_cons, hfv]
      exact ih hrest _
    | vStr s2 =>
      rw [hfv] at hl hdec
      simp only [encodeField] at hl hdec
      simp only [fromJsonLoopS, hl, hdec, exceptBind_ok, List.foldl_cons, hfv]
      exact ih hrest _
    | vTime t =>
      rw [hfv] at hl hdec
      simp only [encodeField] at hl hdec
      simp only [fromJsonLoopS, hl, hdec, exceptBind_ok, List.foldl_cons, hfv]
      exact ih hrest _

/-!
Claim theorems.
-/

/-- C1: for the FXInstrument2 schema, buildUpdateSQL yields exactly the
update text assigning the six non primary key columns in declared order
to placeholders one to six with the primary key getting the final
placeholder, and buildUpdateParams yields the seven values of the
entity in exactly that order, the primary key value last. -/
theorem claim1_update_text_and_params :
    buildUpdateSQL fx2Schema
      = "UPDATE FXInstrument2 SET userId=$1, instrumentId=$2, side=$3, quantity=$4, price=$5, timestamp=$6 WHERE id=$7"
    ∧ ∀ e : FXInstrument2, buildUpdateParams fx2Schema e
      = [.jInt e._userId, .jInt e._instrumentId, .jStr e._side, .jFloat e._quantity,
         .jFloat e._price, .jStr e._timestamp, .jInt e._id] :=
  ⟨rfl, fun _ => rfl⟩

/-- C2: for every schema and entity, buildInsertParams has exactly one
value per column, its nth element is the value of the nth declared
column, and buildInsertSQL lists the column names and the placeholder
indices in the same declared order with the nth placeholder numbered
n plus one, so the nth parameter binds to the nth placeholder. -/
theorem claim2_insert_alignment (E : Type) (s : Schema E) (e : E) :
    (buildInsertParams s e).length = s.columns.length
    ∧ (∀ n : Nat, (buildInsertParams s e)[n]? = (s.columns[n]?).map (fun c => c.get e))
    ∧ (∀ n : Nat, (phIndices s.columns.length 1)[n]?
        = if n < s.columns.length then some (n+1) else none)
    ∧ buildInsertSQL s = "INSERT INTO " ++ s.tableName ++ " ("
        ++ commaSep (s.columns.map SCol.name) ++ ") VALUES ("
        ++ commaSep ((phIndices s.columns.length 1).map (fun n => "$" ++ toString n)) ++ ")" := by
  refine ⟨?_, ?_, ?_, buildInsertSQL_eq s⟩
  · rw [buildInsertParams_eq]; simp
  · intro n; rw [buildInsertParams_eq]; simp [List.getElem?_map]
  · intro n
    rw [phIndices_getElem s.columns.length 1 n]
    by_cases h : n < s.columns.length
    · rw [if_pos h, if_pos h]
      congr 1
      omega
    · rw [if_neg h, if_neg h]

/-- C3: for the FXInstrument2 schema, buildInsertSQL yields exactly the
insert text listing all seven columns in declared order, the primary
key included, with purely positional placeholders. -/
theorem claim3_insert_text :
    buildInsertSQL fx2Schema
      = "INSERT INTO FXInstrument2 (id, userId, instrumentId, side, quantity, price, timestamp) VALUES ($1, $2, $3, $4, $5, $6, $7)" :=
  rfl

/-- C4 counterexample: with a local timezone offset of one hour east,
decoding the encoding of the default TimedEntity (whose fields cover
all four supported scalar kinds) shifts the Timestamp field by the
offset, so fromJson after toJson is not the identity. -/
theorem claim4_counterexample :
    autoFromJsonS 3600 timedSchema (autoToJsonS timedSchema ({} : TimedEntity)) ({} : TimedEntity)
      = .ok ({ tstamp := -3600 } : TimedEntity)
    ∧ ({ tstamp := -3600 } : TimedEntity) ≠ ({} : TimedEntity) :=
  ⟨rfl, by decide⟩

/-- C4 amended: for a lawful schema whose getters match the declared
kinds and whose setters rebuild the entity, fromJson after toJson is
the identity provided the timezone offset is zero and every Timestamp
field lies in the four-digit-year range. -/
theorem claim4_roundtrip_amended (E : Type) (s : KSchema E) (e e0 : E)
    (hnd : (s.columns.map KCol.name).Nodup)
    (hcoh : ∀ c ∈ s.columns, fvKind (c.get e) = c.kind)
    (hrange : ∀ c ∈ s.columns, timeRangeOK (c.get e) = true)
    (hrecon : s.columns.foldl (fun a c => c.set (c.get e) a) e0 = e) :
    autoFromJsonS 0 s (autoToJsonS s e) e0 = .ok e := by
  have hdata : ∀ c ∈ s.columns,
      lookupKey (autoToJsonS s e) c.name = some (encodeField (c.get e))
      ∧ decodeAs 0 c.kind (encodeField (c.get e)) = .ok (c.get e) := by
    intro c hc
    refine ⟨lookup_autoToJson s e c hc hnd, ?_⟩
    rw [← hcoh c hc]
    exact decodeAs_encodeField (c.get e) (hrange c hc)
  unfold autoFromJsonS
  rw [fromJsonLoop_roundtrip s.columns (autoToJsonS s e) e hdata e0, hrecon]

/-- C4 witness: the amended round trip evaluated at a concrete
TimedEntity under a zero timezone offset. -/
theorem claim4_roundtrip_witness :
    ((timedSchema.columns.map KCol.name).Nodup
     ∧ (∀ c ∈ timedSchema.columns,
          fvKind (c.get ({ tid := 5, tqty := 7, tlabel := "x", tstamp := 1700000000 }
            : TimedEntity)) = c.kind)
     ∧ (∀ c ∈ timedSchema.columns,
          timeRangeOK (c.get ({ tid := 5, tqty := 7, tlabel := "x", tstamp := 1700000000 }
            : TimedEntity)) = true)
     ∧ timedSchema.columns.foldl
          (fun a c => c.set (c.get ({ tid := 5, tqty := 7, tlabel := "x", tstamp := 1700000000 }
            : TimedEntity)) a) {}
        = ({ tid := 5, tqty := 7, tlabel := "x", tstamp := 1700000000 } : TimedEntity))
    ∧ autoFromJsonS 0 timedSchema
        (autoToJsonS timedSchema
          ({ tid := 5, tqty := 7, tlabel := "x", tstamp := 1700000000 } : TimedEntity)) {}
      = .ok ({ tid := 5, tqty := 7, tlabel := "x", tstamp := 1700000000 } : TimedEntity) :=
  ⟨⟨by decide, by decide, by decide, by decide⟩,
    claim4_roundtrip_amended TimedEntity timedSchema
      { tid := 5, tqty := 7, tlabel := "x", tstamp := 1700000000 } {}
      (by decide) (by decide) (by decide) (by decide)⟩

/-- C5 counterexample: the FXInstrument2 variant of fromJson fails on a
json object with a missing column key (out_of_range from json::at, not
a silent default), and fails with a type error on a null value. -/
theorem claim5_counterexample :
    fromJson2 [] = .error (.missingKey "id")
    ∧ fromJson2 [("id", .jNull)] = .error .typeMismatch :=
  ⟨rfl, rfl⟩

/-- C5 amended: the Sample_Entity.h autoFromJson leaves every column
whose key is absent or null at the default entity value and succeeds,
and it succeeds whenever every present non-null value decodes at its
column kind; the FXInstrument2 variant instead fails on any absent or
null column key. -/
theorem claim5_decode_defaults_amended (E : Type) (tz : Int) (s : KSchema E) (j : Row) (e0 : E) :
    ((∀ c ∈ s.columns, lookupKey j c.name = none ∨ lookupKey j c.name = some .jNull) →
      autoFromJsonS tz s j e0 = .ok e0)
    ∧ ((∀ c ∈ s.columns, ∀ v, lookupKey j c.name = some v → v ≠ .jNull →
        ∃ fv, decodeAs tz c.kind v = .ok fv) →
      ∃ e, autoFromJsonS tz s j e0 = .ok e) := by
  constructor
  · intro h
    exact fromJsonLoop_skip tz s.columns j h e0
  · intro h
    exact fromJsonLoop_isOk tz s.columns j h e0

/-- C5 witness: decoding a json object holding only a null primary key
leaves the default TimedEntity unchanged and succeeds. -/
theorem claim5_decode_defaults_witness :
    (∀ c ∈ timedSchema.columns,
        lookupKey [("tid", JValue.jNull)] c.name = none
        ∨ lookupKey [("tid", JValue.jNull)] c.name = some .jNull)
    ∧ autoFromJsonS 0 timedSchema [("tid", JValue.jNull)] ({} : TimedEntity) = .ok {} :=
  ⟨by decide,
    (claim5_decode_defaults_amended TimedEntity 0 timedSchema [("tid", JValue.jNull)] {}).1
      (by decide)⟩

/-- C6 counterexample: with an executor returning an empty row, the
FXInstrument2 Repository getById fails with the missing-key decode
error of json::at, which is not the NotFoundError the claim states
(no code of the repository raises NotFoundError). -/
theorem claim6_counterexample :
    getById2 (fun _ _ => []) 7 = .error (.missingKey "id")
    ∧ Err.missingKey "id" ≠ Err.notFound :=
  ⟨rfl, by decide⟩

/-- C6 amended: getById builds the select-by-id text with the id as the
single parameter and decodes the returned row with the codec; on an
empty result the FXInstrument2 variant propagates the missing-key
decode failure instead of NotFoundError, the optional-returning
Sample_Entity.h variant returns none without any error, and when the
executor returns the encoding of a stored entity the FXInstrument2
variant returns exactly that entity. -/
theorem claim6_getById_amended :
    (∀ (db : String → List JValue → Row) (id : Int),
        getById2 db id
          = fromJson2 (db "SELECT * FROM FXInstrument2 WHERE id=$1" [.jInt id]))
    ∧ (∀ (db : String → List JValue → Row) (id : Int),
        db (selectByIdSQL fx2Schema) [.jInt id] = [] →
        getById2 db id = .error (.missingKey "id"))
    ∧ (∀ (db : String → List JValue → Row) (id : Int) (e : FXInstrument2),
        db (selectByIdSQL fx2Schema) [.jInt id] = toJson2 e →
        getById2 db id = .ok e)
    ∧ (∀ (E : Type) (tz : Int) (s : KSchema E)
        (db : String → List String → List (List DBVal)) (id : Int) (e0 : E),
        db ("SELECT * FROM " ++ s.tableName ++ " WHERE " ++ s.primaryKey ++ " = $1")
          [toString id] = [] →
        getByIdS tz s db id e0 = .ok none) := by
  refine ⟨fun db id => rfl, ?_, ?_, ?_⟩
  · intro db id h
    unfold getById2
    rw [h]
    rfl
  · intro db id e h
    unfold getById2
    rw [h]
    exact fromJson2_toJson2 e
  · intro E0 tz s db id e0 h
    simp only [getByIdS]
    rw [h]

/-- C6 witness: an executor that stores the default entity row makes
getById return exactly that entity. -/
theorem claim6_getById_witness :
    ((fun (_ : String) (_ : List JValue) => toJson2 {}) (selectByIdSQL fx2Schema) [.jInt 7]
        = toJson2 ({} : FXInstrument2))
    ∧ getById2 (fun _ _ => toJson2 {}) 7 = .ok ({} : FXInstrument2) :=
  ⟨rfl, claim6_getById_amended.2.2.1 (fun _ _ => toJson2 {}) 7 {} rfl⟩

/-- C7: insert, update and remove of the FXInstrument2 Repository
return normally whatever affected-row count the executor reports, and
the result does not depend on the executor at all: a zero count on
update or remove is not reported as any failure. -/
theorem claim7_affected_count_ignored :
    ∀ (db db2 : String → List JValue → Int) (e : FXInstrument2),
      insert2 db e = .ok () ∧ update2 db e = .ok () ∧ remove2 db e = .ok ()
      ∧ insert2 db e = insert2 db2 e ∧ update2 db e = update2 db2 e
      ∧ remove2 db e = remove2 db2 e :=
  fun _ _ _ => ⟨rfl, rfl, rfl, rfl, rfl, rfl⟩

/-- C8: toJson emits every Timestamp-kind field as the string produced
by timePointToString, which renders the UTC broken-down time of the
value (gmtime semantics, no timezone parameter) in the fixed 19
character format, for example mapping epoch second 1700000000 to its
UTC rendering. -/
theorem claim8_timestamp_utc_format :
    (∀ (E : Type) (s : KSchema E) (e : E) (c : KCol E), c ∈ s.columns →
      (s.columns.map KCol.name).Nodup →
      ∀ t : Int, c.get e = .vTime t →
      lookupKey (autoToJsonS s e) c.name = some (.jStr (timePointToString t)))
    ∧ (∀ t : Int, (timePointToString t).length = 19)
    ∧ timePointToString 1700000000 = "2023-11-14 22:13:20"
    ∧ timePointToString 0 = "1970-01-01 00:00:00" := by
  refine ⟨?_, ?_, rfl, rfl⟩
  · intro E0 s e c hc hnd t hfv
    rw [lookup_autoToJson s e c hc hnd, hfv]
    rfl
  · intro t
    exact formatTm_length (gmtimeZ t)

/-- C8 witness: the Timestamp column of a concrete TimedEntity is
emitted as the formatted UTC string. -/
theorem claim8_timestamp_utc_format_witness :
    (timedSchema.columns.map KCol.name).Nodup
    ∧ lookupKey (autoToJsonS timedSchema ({ tstamp := 1700000000 } : TimedEntity)) "tstamp"
        = some (.jStr (timePointToString 1700000000)) := by
  have hc : (⟨"tstamp", .time, fun e => .vTime e.tstamp,
      fun v e => match v with | .vTime t => { e with tstamp := t } | _ => e⟩
        : KCol TimedEntity) ∈ timedSchema.columns := by
    unfold timedSchema
    exact List.Mem.tail _ (List.Mem.tail _ (List.Mem.tail _ (List.Mem.head _)))
  exact ⟨by decide,
    claim8_timestamp_utc_format.1 TimedEntity timedSchema { tstamp := 1700000000 } _ hc
      (by decide) 1700000000 rfl⟩

/-- C9: the first variant registers FXInstrument under table name
"employees", so all generated statements for it target the table
employees, while the FXInstrument2 statements target FXInstrument2. -/
theorem claim9_table_names :
    fxSchema.tableName = "employees"
    ∧ buildInsertSQL fxSchema
        = "INSERT INTO employees (id, userId, instrumentId, side, quantity, price, timestamp) VALUES ($1, $2, $3, $4, $5, $6, $7)"
    ∧ buildUpdateSQL fxSchema
        = "UPDATE employees SET userId=$1, instrumentId=$2, side=$3, quantity=$4, price=$5, timestamp=$6 WHERE id=$7"
    ∧ buildDeleteSQL fxSchema = "DELETE FROM employees WHERE id=$1"
    ∧ selectByIdSQL fxSchema = "SELECT * FROM employees WHERE id=$1"
    ∧ selectAllSQL fxSchema = "SELECT * FROM employees"
    ∧ fx2Schema.tableName = "FXInstrument2"
    ∧ buildInsertSQL fx2Schema
        = "INSERT INTO FXInstrument2 (id, userId, instrumentId, side, quantity, price, timestamp) VALUES ($1, $2, $3, $4, $5, $6, $7)"
    ∧ buildUpdateSQL fx2Schema
        = "UPDATE FXInstrument2 SET userId=$1, instrumentId=$2, side=$3, quantity=$4, price=$5, timestamp=$6 WHERE id=$7"
    ∧ buildDeleteSQL fx2Schema = "DELETE FROM FXInstrument2 WHERE id=$1"
    ∧ selectByIdSQL fx2Schema = "SELECT * FROM FXInstrument2 WHERE id=$1"
    ∧ selectAllSQL fx2Schema = "SELECT * FROM FXInstrument2" :=
  ⟨rfl, rfl, rfl, rfl, rfl, rfl, rfl, rfl, rfl, rfl, rfl, rfl⟩

/-- C10: the timestamp codec is asymmetric about timezones: parsing the
gmtime-based rendering with the mktime-based parser shifts every
in-range timestamp by the local timezone offset, so the composition is
the identity exactly when the offset is zero, and parsing the empty
string yields the default epoch time point. -/
theorem claim10_time_codec_asymmetry (tz t : Int) (h1 : 0 ≤ t) (h2 : t < 253402300800) :
    stringToTimePoint tz (timePointToString t) = t - tz
    ∧ (stringToTimePoint tz (timePointToString t) = t ↔ tz = 0)
    ∧ stringToTimePoint tz "" = 0 := by
  have h := stringToTimePoint_format tz t h1 h2
  refine ⟨h, ?_, rfl⟩
  rw [h]
  omega

/-- C10 witness: at epoch second zero and an offset of one hour east
the composition shifts the timestamp by exactly the offset. -/
theorem claim10_time_codec_asymmetry_witness :
    ((0:Int) ≤ 0 ∧ (0:Int) < 253402300800)
    ∧ stringToTimePoint 3600 (timePointToString 0) = 0 - 3600 :=
  ⟨by decide, (claim10_time_codec_asymmetry 3600 0 (by decide) (by decide)).1⟩
